import Mathlib

/-!
# Verification of the probabilistic forecast evaluator of `fm-time-series`

The repository is a tutorial notebook (`lag-llama.ipynb`) whose only
algorithmic core is the probabilistic forecast-scoring procedure: the
GluonTS `Evaluator` that the notebook invokes three times (zero-shot
Lag-Llama, `SimpleFeedForwardEstimator` baseline, fine-tuned Lag-Llama) to
turn (ground-truth series, forecast) pairs into one aggregate weighted
quantile loss, printed under the label "CRPS" as
`agg_metrics['mean_wQuantileLoss']`.

The evaluator's implementation lives in the external GluonTS library, not
in this repository; the specification (spec.md §3, §4.1, §7, §8) describes
it precisely, so the scoring procedure below is modelled from the spec and
the notebook's call sites are embedded on top of it.  Exact rational
arithmetic (`ℚ`) stands in for floating point, as the spec's properties are
stated up to floating-point tolerance and exactly over exact arithmetic.
-/

/-- Modelled from the spec: the evaluator's error taxonomy (spec.md §4.1,
§7) — `ShapeMismatch`, `EmptyInputError`, `InvalidQuantileError`; the
implementation is in the external GluonTS library, absent from `src/`. -/
inductive EvalError where
  | shapeMismatch
  | emptyInput
  | invalidQuantile
deriving DecidableEq, Repr

/-- Modelled from the spec: a forecast for a horizon of length `horizon`
(spec.md §3, §6): the evaluator requires only that the forecast can
enumerate a predicted `q`-quantile value for each horizon step.  A point
forecast and a sample-based forecast are both presented through
`predQuantile`. -/
structure Forecast where
  horizon : ℕ
  predQuantile : ℚ → ℕ → ℚ

/-- Modelled from the spec: a point forecast is degenerate — its predicted
`q`-quantile equals the point value for all `q` (spec.md §4.1). -/
def Forecast.ofPoint (values : List ℚ) : Forecast where
  horizon := values.length
  predQuantile := fun _ i => values.getD i 0

/-- Modelled from the spec: the pinball/quantile loss (spec.md §4.1): if
the true value is below the predicted quantile, loss = (1−q) × (predicted −
true); otherwise loss = q × (true − predicted). -/
def quantileLoss (q trueVal pred : ℚ) : ℚ :=
  if trueVal < pred then (1 - q) * (pred - trueVal) else q * (trueVal - pred)

/-- Sum of the pinball losses of one (series, forecast) pair across all
requested quantile levels and all horizon steps (spec.md §4.1). -/
def seriesLoss (quantileLevels : List ℚ) (s : List ℚ) (f : Forecast) : ℚ :=
  (quantileLevels.map (fun q =>
    ((List.range f.horizon).map (fun i =>
      quantileLoss q (s.getD i 0) (f.predQuantile q i))).sum)).sum

/-- Sum of absolute values of a series, the normalizer of the aggregate
metric (spec.md §4.1). -/
def absSum (s : List ℚ) : ℚ := (s.map (fun t => abs t)).sum

/-- A quantile level is valid when it lies strictly between 0 and 1
(spec.md §3 invariant). -/
def validQuantile (q : ℚ) : Bool := decide (0 < q) && decide (q < 1)

/-- Modelled from the spec: `score(pairs, quantile_levels)` (spec.md §4.1)
— the GluonTS `Evaluator.__call__` is absent from `src/`.  It fails with
`EmptyInputError` on an empty input sequence, with `ShapeMismatch` when a
forecast's horizon length differs from its paired ground-truth held-out
length, and with `InvalidQuantileError` when a requested quantile level is
not strictly between 0 and 1; otherwise it returns the sum of quantile
losses across quantile levels, horizon steps and series, normalized by the
sum of absolute true values (the mean weighted quantile loss). -/
def score (pairs : List (List ℚ × Forecast)) (quantileLevels : List ℚ) :
    Except EvalError ℚ :=
  if pairs.isEmpty then
    Except.error EvalError.emptyInput
  else if pairs.any (fun pr => pr.2.horizon ≠ pr.1.length) then
    Except.error EvalError.shapeMismatch
  else if quantileLevels.any (fun q => !(validQuantile q)) then
    Except.error EvalError.invalidQuantile
  else
    Except.ok ((pairs.map (fun pr => seriesLoss quantileLevels pr.1 pr.2)).sum /
      (pairs.map (fun pr => absSum pr.1)).sum)

/-- A series scaled by a scalar k: every observation multiplied by k. -/
def scaleSeries (k : ℚ) (s : List ℚ) : List ℚ := s.map (fun t => k * t)

/-- A forecast scaled by a scalar k: every predicted quantile value
multiplied by k, over the same horizon. -/
def Forecast.scale (k : ℚ) (f : Forecast) : Forecast where
  horizon := f.horizon
  predQuantile := fun q i => k * f.predQuantile q i

/-- A whole input sequence scaled by k: (series × k, forecast × k) for each
pair (spec.md §8, scale invariance). -/
def scalePairs (k : ℚ) (pairs : List (List ℚ × Forecast)) :
    List (List ℚ × Forecast) :=
  pairs.map (fun pr => (scaleSeries k pr.1, Forecast.scale k pr.2))

/-- Modelled from the spec: the default quantile levels of the evaluator —
commonly {0.1, 0.2, ..., 0.9}, which includes the median 0.5 (spec.md
§4.1); the `Evaluator` defaults live in the external GluonTS library,
absent from `src/`. -/
def defaultQuantileLevels : List ℚ :=
  [1/10, 2/10, 3/10, 4/10, 5/10, 6/10, 7/10, 8/10, 9/10]

/-- The evaluator's configuration: the quantile levels it scores and the
normalization it applies are fixed at construction (spec.md §4.1). -/
structure EvaluatorConfig where
  quantileLevels : List ℚ
deriving DecidableEq

/-- `Evaluator()`: the default-configured evaluator, as constructed in each
of the notebook's three evaluation cells. -/
def defaultEvaluator : EvaluatorConfig := ⟨defaultQuantileLevels⟩

/-- The evaluator's output mapping from metric name to scalar, containing
the aggregate weighted quantile loss under the key `mean_wQuantileLoss`
(spec.md §4.1 output). -/
def aggregateMetrics (cfg : EvaluatorConfig) (tss : List (List ℚ))
    (forecasts : List Forecast) : Except EvalError (List (String × ℚ)) :=
  (score (tss.zip forecasts) cfg.quantileLevels).map
    (fun v => [("mean_wQuantileLoss", v)])

/-- The held-out ground-truth series enumerated by
`make_evaluation_predictions(dataset=dataset.test, ...)`: each evaluation
cell derives its `tss` from the same `dataset.test` split. -/
def makeEvaluationGroundTruth (testSet : List (List ℚ)) : List (List ℚ) :=
  testSet

/-- The evaluator constructed in the zero-shot cell (`evaluator =
Evaluator()`, notebook section 3). -/
def zeroShotEvaluator : EvaluatorConfig := defaultEvaluator

/-- The evaluator constructed in the baseline cell (`evaluator =
Evaluator()`, notebook section 4). -/
def baselineEvaluator : EvaluatorConfig := defaultEvaluator

/-- The evaluator constructed in the fine-tuned cell (`evaluator =
Evaluator()`, notebook section 6). -/
def fineTunedEvaluator : EvaluatorConfig := defaultEvaluator

/-- The zero-shot evaluation cell: `evaluator(iter(tss), iter(forecasts))`
over the test split's held-out series and the zero-shot forecasts. -/
def zeroShotAggMetrics (testSet : List (List ℚ)) (forecasts : List Forecast) :
    Except EvalError (List (String × ℚ)) :=
  aggregateMetrics zeroShotEvaluator (makeEvaluationGroundTruth testSet) forecasts

/-- The baseline evaluation cell: the same invocation over the baseline
forecasts. -/
def baselineAggMetrics (testSet : List (List ℚ)) (forecasts : List Forecast) :
    Except EvalError (List (String × ℚ)) :=
  aggregateMetrics baselineEvaluator (makeEvaluationGroundTruth testSet) forecasts

/-- The fine-tuned evaluation cell: the same invocation over the fine-tuned
forecasts. -/
def fineTunedAggMetrics (testSet : List (List ℚ)) (forecasts : List Forecast) :
    Except EvalError (List (String × ℚ)) :=
  aggregateMetrics fineTunedEvaluator (makeEvaluationGroundTruth testSet) forecasts

/-- The scalar each evaluation cell prints under the label "CRPS":
`agg_metrics['mean_wQuantileLoss']`. -/
def printedCRPS (metrics : List (String × ℚ)) : ℚ :=
  (metrics.lookup "mean_wQuantileLoss").getD 0

/-- The value printed as "CRPS" in the zero-shot cell. -/
def zeroShotPrintedCRPS (testSet : List (List ℚ)) (forecasts : List Forecast) :
    Except EvalError ℚ :=
  (zeroShotAggMetrics testSet forecasts).map printedCRPS

/-- The value printed as "CRPS" in the baseline cell. -/
def baselinePrintedCRPS (testSet : List (List ℚ)) (forecasts : List Forecast) :
    Except EvalError ℚ :=
  (baselineAggMetrics testSet forecasts).map printedCRPS

/-- The value printed as "CRPS" in the fine-tuned cell. -/
def fineTunedPrintedCRPS (testSet : List (List ℚ)) (forecasts : List Forecast) :
    Except EvalError ℚ :=
  (fineTunedAggMetrics testSet forecasts).map printedCRPS

/-- The `LagLlamaEstimator` construction arguments relevant to sampling
constraints, as passed in the notebook's two constructions. -/
structure LagLlamaEstimatorConfig where
  context_length : ℕ
  nonnegative_pred_samples : Bool
  num_parallel_samples : Option ℕ
deriving DecidableEq

/-- The zero-shot construction (notebook section 3): `context_length=32`;
`nonnegative_pred_samples` is not passed, so the library default applies
and the sampled values are unconstrained (false). -/
def zeroShotEstimator : LagLlamaEstimatorConfig :=
  ⟨32, false, none⟩

/-- The fine-tuning construction (notebook section 5): `context_length=32`,
`nonnegative_pred_samples=True`, `num_parallel_samples=20`. -/
def fineTunedEstimator : LagLlamaEstimatorConfig :=
  ⟨32, true, some 20⟩

/-- Modelled from the spec: the effect of the estimator's
`nonnegative_pred_samples` flag on a sampled trajectory value — the sample
is clamped at zero when the flag is set and untouched otherwise; the
`LagLlamaEstimator` implementation is in the external lag-llama library,
absent from `src/`. -/
def applySampleConstraint (cfg : LagLlamaEstimatorConfig) (x : ℚ) : ℚ :=
  if cfg.nonnegative_pred_samples then max 0 x else x

/-- C1: for every quantile level strictly between 0 and 1, the pinball loss
equals (1−q)(pred−true) when the true value is below the predicted
quantile and q(true−pred) otherwise, and it is asymmetric:
loss(q = 9/10, true = 10, pred = 5) > loss(q = 1/10, true = 10, pred = 5). -/
theorem quantileLoss_formula_and_asymmetric (q trueVal pred : ℚ)
    (hq0 : 0 < q) (hq1 : q < 1) :
    (trueVal < pred → quantileLoss q trueVal pred = (1 - q) * (pred - trueVal)) ∧
    (¬ trueVal < pred → quantileLoss q trueVal pred = q * (trueVal - pred)) ∧
    quantileLoss (9/10) 10 5 > quantileLoss (1/10) 10 5 := by
  refine ⟨fun h => ?_, fun h => ?_, by norm_num [quantileLoss]⟩
  · simp [quantileLoss, h]
  · simp [quantileLoss, h]

/-- Witness for C1 at q = 1/2, true = 3, pred = 7. -/
theorem quantileLoss_formula_and_asymmetric_witness :
    (0 : ℚ) < 1/2 ∧ (1 : ℚ)/2 < 1 ∧
    ((3 : ℚ) < 7 → quantileLoss (1/2) 3 7 = (1 - 1/2) * (7 - 3)) ∧
    (¬ (3 : ℚ) < 7 → quantileLoss (1/2) 3 7 = (1/2) * (3 - 7)) ∧
    quantileLoss (9/10) 10 5 > quantileLoss (1/10) 10 5 := by
  refine ⟨by norm_num, by norm_num, ?_⟩
  exact quantileLoss_formula_and_asymmetric (1/2) 3 7 (by norm_num) (by norm_num)

/-- C5: `score` fails with `EmptyInputError` if and only if the input
sequence of (series, forecast) pairs is empty; every non-empty input
produces either another validation error or an aggregate metric, never
this error. -/
theorem score_emptyInput_iff (pairs : List (List ℚ × Forecast))
    (quantileLevels : List ℚ) :
    score pairs quantileLevels = Except.error EvalError.emptyInput ↔ pairs = [] := by
  unfold score
  split_ifs with h1 h2 h3 <;> simp_all [List.isEmpty_iff]

/-- C6: whenever the input contains a pair whose forecast horizon length
differs from the length of its paired ground-truth held-out series, `score`
fails with `ShapeMismatch`, returning the error to the caller with no
partial result. -/
theorem score_shapeMismatch_of_mismatch (pairs : List (List ℚ × Forecast))
    (quantileLevels : List ℚ)
    (h : ∃ pr ∈ pairs, pr.2.horizon ≠ pr.1.length) :
    score pairs quantileLevels = Except.error EvalError.shapeMismatch := by
  obtain ⟨pr, hmem, hne⟩ := h
  have hany : pairs.any (fun pr => pr.2.horizon ≠ pr.1.length) = true :=
    List.any_eq_true.mpr ⟨pr, hmem, decide_eq_true hne⟩
  have hnil : pairs ≠ [] := by
    intro he
    subst he
    cases hmem
  unfold score
  rw [if_neg (by simpa [List.isEmpty_iff] using hnil), if_pos hany]

/-- Witness for C6: a two-point series paired with a one-step forecast. -/
theorem score_shapeMismatch_of_mismatch_witness :
    (∃ pr ∈ ([([1, 2], Forecast.ofPoint [1])] : List (List ℚ × Forecast)),
      pr.2.horizon ≠ pr.1.length) ∧
    score [([1, 2], Forecast.ofPoint [1])] [1/2] =
      Except.error EvalError.shapeMismatch := by
  have h : ∃ pr ∈ ([([1, 2], Forecast.ofPoint [1])] : List (List ℚ × Forecast)),
      pr.2.horizon ≠ pr.1.length :=
    ⟨([1, 2], Forecast.ofPoint [1]), List.mem_singleton.mpr rfl, by decide⟩
  exact ⟨h, score_shapeMismatch_of_mismatch _ _ h⟩

/-- C7: on a non-empty, shape-consistent input, a requested quantile level
q with q ≤ 0 or q ≥ 1 makes `score` fail with `InvalidQuantileError`, and
when every requested quantile level lies strictly between 0 and 1 this
error is not raised. -/
theorem score_invalidQuantile_spec (pairs : List (List ℚ × Forecast))
    (quantileLevels : List ℚ) (hne : pairs ≠ [])
    (hshape : ∀ pr ∈ pairs, pr.2.horizon = pr.1.length) :
    ((∃ q ∈ quantileLevels, q ≤ 0 ∨ 1 ≤ q) →
      score pairs quantileLevels = Except.error EvalError.invalidQuantile) ∧
    ((∀ q ∈ quantileLevels, 0 < q ∧ q < 1) →
      score pairs quantileLevels ≠ Except.error EvalError.invalidQuantile) := by
  have hA : ¬ (pairs.isEmpty = true) := by simpa [List.isEmpty_iff] using hne
  have hB : ¬ (pairs.any (fun pr => pr.2.horizon ≠ pr.1.length) = true) := by
    simp only [List.any_eq_true, decide_eq_true_eq, not_exists]
    intro pr
    simp only [not_and]
    intro hpr
    simp [hshape pr hpr]
  constructor
  · rintro ⟨q, hq, hbad⟩
    have hq' : quantileLevels.any (fun q => !(validQuantile q)) = true := by
      refine List.any_eq_true.mpr ⟨q, hq, ?_⟩
      rcases hbad with h | h
      · simp [validQuantile, not_lt.mpr h]
      · simp [validQuantile, not_lt.mpr h]
    unfold score
    rw [if_neg hA, if_neg hB, if_pos hq']
  · intro hgood
    have hq' : ¬ (quantileLevels.any (fun q => !(validQuantile q)) = true) := by
      simp only [List.any_eq_true, not_exists]
      intro q
      simp only [not_and]
      intro hq
      simp [validQuantile, (hgood q hq).1, (hgood q hq).2]
    unfold score
    rw [if_neg hA, if_neg hB, if_neg hq']
    simp

/-- Witness for C7 at one shape-consistent pair with quantile sets
containing 3/2 (rejected) and 1/2 (accepted). -/
theorem score_invalidQuantile_spec_witness :
    (([([1, 2], Forecast.ofPoint [3, 4])] : List (List ℚ × Forecast)) ≠ []) ∧
    (∀ pr ∈ ([([1, 2], Forecast.ofPoint [3, 4])] : List (List ℚ × Forecast)),
      pr.2.horizon = pr.1.length) ∧
    ((∃ q ∈ [(3 : ℚ)/2], q ≤ 0 ∨ 1 ≤ q) →
      score [([1, 2], Forecast.ofPoint [3, 4])] [3/2] =
        Except.error EvalError.invalidQuantile) ∧
    ((∀ q ∈ [(3 : ℚ)/2], 0 < q ∧ q < 1) →
      score [([1, 2], Forecast.ofPoint [3, 4])] [3/2] ≠
        Except.error EvalError.invalidQuantile) := by
  have h1 : (([([1, 2], Forecast.ofPoint [3, 4])] : List (List ℚ × Forecast)) ≠ []) := by
    simp
  have h2 : ∀ pr ∈ ([([1, 2], Forecast.ofPoint [3, 4])] : List (List ℚ × Forecast)),
      pr.2.horizon = pr.1.length := by
    intro pr hpr
    rw [List.mem_singleton] at hpr
    subst hpr
    rfl
  exact ⟨h1, h2, score_invalidQuantile_spec _ _ h1 h2⟩

/-- Helper: the pinball loss of a perfectly predicted value is zero. -/
theorem quantileLoss_self (q t : ℚ) : quantileLoss q t t = 0 := by
  simp [quantileLoss]

/-- Helper: on a non-empty, shape-consistent input with valid quantile
levels, `score` returns the normalized loss sum. -/
theorem score_eq_ok (pairs : List (List ℚ × Forecast)) (quantileLevels : List ℚ)
    (hne : pairs ≠ [])
    (hshape : ∀ pr ∈ pairs, pr.2.horizon = pr.1.length)
    (hq : ∀ q ∈ quantileLevels, 0 < q ∧ q < 1) :
    score pairs quantileLevels =
      Except.ok ((pairs.map (fun pr => seriesLoss quantileLevels pr.1 pr.2)).sum /
        (pairs.map (fun pr => absSum pr.1)).sum) := by
  have hA : ¬ (pairs.isEmpty = true) := by simpa [List.isEmpty_iff] using hne
  have hB : ¬ (pairs.any (fun pr => pr.2.horizon ≠ pr.1.length) = true) := by
    simp only [List.any_eq_true, decide_eq_true_eq, not_exists]
    intro pr
    simp only [not_and]
    intro hpr
    simp [hshape pr hpr]
  have hC : ¬ (quantileLevels.any (fun q => !(validQuantile q)) = true) := by
    simp only [List.any_eq_true, not_exists]
    intro q
    simp only [not_and]
    intro hq'
    simp [validQuantile, (hq q hq').1, (hq q hq').2]
  unfold score
  rw [if_neg hA, if_neg hB, if_neg hC]

/-- C3: scoring forecasts whose predicted q-quantiles equal the true
values at every horizon step yields aggregate weighted quantile loss
exactly 0, for any valid requested quantile levels. -/
theorem score_perfect_forecast_eq_zero (pairs : List (List ℚ × Forecast))
    (quantileLevels : List ℚ) (hne : pairs ≠ [])
    (hshape : ∀ pr ∈ pairs, pr.2.horizon = pr.1.length)
    (hq : ∀ q ∈ quantileLevels, 0 < q ∧ q < 1)
    (hperfect : ∀ pr ∈ pairs, ∀ q ∈ quantileLevels, ∀ i < pr.2.horizon,
      pr.2.predQuantile q i = pr.1.getD i 0) :
    score pairs quantileLevels = Except.ok 0 := by
  rw [score_eq_ok pairs quantileLevels hne hshape hq]
  have hnum : (pairs.map (fun pr => seriesLoss quantileLevels pr.1 pr.2)).sum = 0 := by
    refine List.sum_eq_zero ?_
    intro x hx
    rw [List.mem_map] at hx
    obtain ⟨pr, hpr, rfl⟩ := hx
    unfold seriesLoss
    refine List.sum_eq_zero ?_
    intro y hy
    rw [List.mem_map] at hy
    obtain ⟨q, hqmem, rfl⟩ := hy
    refine List.sum_eq_zero ?_
    intro z hz
    rw [List.mem_map] at hz
    obtain ⟨i, hi, rfl⟩ := hz
    rw [List.mem_range] at hi
    rw [hperfect pr hpr q hqmem i hi, quantileLoss_self]
  rw [hnum, zero_div]

/-- Witness for C3: a constant three-step series scored against a point
forecast equal to that constant, at quantile levels 0.1, 0.5 and 0.9. -/
theorem score_perfect_forecast_eq_zero_witness :
    (([([5, 5, 5], Forecast.ofPoint [5, 5, 5])] : List (List ℚ × Forecast)) ≠ []) ∧
    (∀ pr ∈ ([([5, 5, 5], Forecast.ofPoint [5, 5, 5])] : List (List ℚ × Forecast)),
      pr.2.horizon = pr.1.length) ∧
    (∀ q ∈ [(1 : ℚ)/10, 1/2, 9/10], 0 < q ∧ q < 1) ∧
    (∀ pr ∈ ([([5, 5, 5], Forecast.ofPoint [5, 5, 5])] : List (List ℚ × Forecast)),
      ∀ q ∈ [(1 : ℚ)/10, 1/2, 9/10], ∀ i < pr.2.horizon,
        pr.2.predQuantile q i = pr.1.getD i 0) ∧
    score [([5, 5, 5], Forecast.ofPoint [5, 5, 5])] [1/10, 1/2, 9/10] =
      Except.ok 0 := by
  have h1 : (([([5, 5, 5], Forecast.ofPoint [5, 5, 5])] :
      List (List ℚ × Forecast)) ≠ []) := by simp
  have h2 : ∀ pr ∈ ([([5, 5, 5], Forecast.ofPoint [5, 5, 5])] :
      List (List ℚ × Forecast)), pr.2.horizon = pr.1.length := by
    intro pr hpr
    rw [List.mem_singleton] at hpr
    subst hpr
    rfl
  have h3 : ∀ q ∈ [(1 : ℚ)/10, 1/2, 9/10], 0 < q ∧ q < 1 := by
    intro q hq
    fin_cases hq <;> norm_num
  have h4 : ∀ pr ∈ ([([5, 5, 5], Forecast.ofPoint [5, 5, 5])] :
      List (List ℚ × Forecast)), ∀ q ∈ [(1 : ℚ)/10, 1/2, 9/10],
      ∀ i < pr.2.horizon, pr.2.predQuantile q i = pr.1.getD i 0 := by
    intro pr hpr q hq i hi
    rw [List.mem_singleton] at hpr
    subst hpr
    rfl
  exact ⟨h1, h2, h3, h4, score_perfect_forecast_eq_zero _ _ h1 h2 h3 h4⟩

/-- Helper: two nested list sums commute. -/
theorem sum_map_swap {α β : Type} (l : List α) (m : List β) (f : α → β → ℚ) :
    (l.map (fun a => (m.map (fun b => f a b)).sum)).sum =
      (m.map (fun b => (l.map (fun a => f a b)).sum)).sum := by
  induction l with
  | nil => simp
  | cons a l ih =>
      simp only [List.map_cons, List.sum_cons, ih]
      rw [← List.sum_map_add]

/-- C2: on non-empty well-formed input, the aggregate metric returned by
`score` is the sum of the quantile losses over all quantile levels, horizon
steps and series, divided by the sum of absolute true values — the mean
weighted quantile loss. -/
theorem score_eq_mean_weighted_quantile_loss (pairs : List (List ℚ × Forecast))
    (quantileLevels : List ℚ) (hne : pairs ≠ [])
    (hshape : ∀ pr ∈ pairs, pr.2.horizon = pr.1.length)
    (hq : ∀ q ∈ quantileLevels, 0 < q ∧ q < 1) :
    score pairs quantileLevels =
      Except.ok ((quantileLevels.map (fun q => (pairs.map (fun pr =>
        ((List.range pr.2.horizon).map (fun i =>
          quantileLoss q (pr.1.getD i 0) (pr.2.predQuantile q i))).sum)).sum)).sum /
        (pairs.map (fun pr => absSum pr.1)).sum) := by
  rw [score_eq_ok pairs quantileLevels hne hshape hq]
  simp only [seriesLoss]
  rw [sum_map_swap]

/-- Witness for C2: one two-step series and forecast scored at the median
quantile level. -/
theorem score_eq_mean_weighted_quantile_loss_witness :
    (([([1, 2], Forecast.ofPoint [2, 2])] : List (List ℚ × Forecast)) ≠ []) ∧
    (∀ pr ∈ ([([1, 2], Forecast.ofPoint [2, 2])] : List (List ℚ × Forecast)),
      pr.2.horizon = pr.1.length) ∧
    (∀ q ∈ [(1 : ℚ)/2], 0 < q ∧ q < 1) ∧
    score [([1, 2], Forecast.ofPoint [2, 2])] [1/2] = Except.ok (1/6) := by
  have h1 : (([([1, 2], Forecast.ofPoint [2, 2])] :
      List (List ℚ × Forecast)) ≠ []) := by simp
  have h2 : ∀ pr ∈ ([([1, 2], Forecast.ofPoint [2, 2])] :
      List (List ℚ × Forecast)), pr.2.horizon = pr.1.length := by
    intro pr hpr
    rw [List.mem_singleton] at hpr
    subst hpr
    rfl
  have h3 : ∀ q ∈ [(1 : ℚ)/2], 0 < q ∧ q < 1 := by
    intro q hq
    rw [List.mem_singleton] at hq
    subst hq
    norm_num
  refine ⟨h1, h2, h3, ?_⟩
  rw [score_eq_mean_weighted_quantile_loss _ _ h1 h2 h3]
  refine congrArg Except.ok ?_
  norm_num [quantileLoss, Forecast.ofPoint, absSum, List.range_succ]

/-- Helper: element access after scaling a series. -/
theorem scaleSeries_getD (k : ℚ) (s : List ℚ) (i : ℕ) :
    (scaleSeries k s).getD i 0 = k * s.getD i 0 := by
  induction s generalizing i with
  | nil => simp [scaleSeries]
  | cons a s ih =>
      cases i with
      | zero => simp [scaleSeries]
      | succ j => simpa [scaleSeries] using ih j

/-- Helper: the pinball loss is positively homogeneous of degree one. -/
theorem quantileLoss_smul (q t p k : ℚ) (hk : 0 < k) :
    quantileLoss q (k * t) (k * p) = k * quantileLoss q t p := by
  unfold quantileLoss
  rcases lt_or_ge t p with h | h
  · rw [if_pos h, if_pos ((mul_lt_mul_left hk).mpr h)]
    ring
  · rw [if_neg (not_lt.mpr h), if_neg (not_lt.mpr ((mul_le_mul_left hk).mpr h))]
    ring

/-- Helper: the per-pair loss sum is positively homogeneous of degree
one. -/
theorem seriesLoss_smul (quantileLevels : List ℚ) (s : List ℚ) (f : Forecast)
    (k : ℚ) (hk : 0 < k) :
    seriesLoss quantileLevels (scaleSeries k s) (Forecast.scale k f) =
      k * seriesLoss quantileLevels s f := by
  unfold seriesLoss
  rw [← List.sum_map_mul_left]
  refine congrArg List.sum ?_
  refine List.map_congr_left ?_
  intro q hq
  show ((List.range (Forecast.scale k f).horizon).map (fun i =>
      quantileLoss q ((scaleSeries k s).getD i 0)
        ((Forecast.scale k f).predQuantile q i))).sum =
    k * ((List.range f.horizon).map (fun i =>
      quantileLoss q (s.getD i 0) (f.predQuantile q i))).sum
  rw [← List.sum_map_mul_left]
  refine congrArg List.sum ?_
  refine List.map_congr_left ?_
  intro i hi
  show quantileLoss q ((scaleSeries k s).getD i 0) (k * f.predQuantile q i) =
    k * quantileLoss q (s.getD i 0) (f.predQuantile q i)
  rw [scaleSeries_getD]
  exact quantileLoss_smul q (s.getD i 0) (f.predQuantile q i) k hk

/-- Helper: the normalizer is positively homogeneous of degree one. -/
theorem absSum_smul (k : ℚ) (hk : 0 < k) (s : List ℚ) :
    absSum (scaleSeries k s) = k * absSum s := by
  unfold absSum scaleSeries
  rw [List.map_map, ← List.sum_map_mul_left]
  refine congrArg List.sum ?_
  refine List.map_congr_left ?_
  intro t ht
  show abs (k * t) = k * abs t
  rw [abs_mul, abs_of_pos hk]

/-- Helper: a shape mismatch anywhere in the input makes `score` fail with
`ShapeMismatch`. -/
theorem score_mismatch_aux (pairs : List (List ℚ × Forecast))
    (quantileLevels : List ℚ)
    (h : ∃ pr ∈ pairs, pr.2.horizon ≠ pr.1.length) :
    score pairs quantileLevels = Except.error EvalError.shapeMismatch := by
  obtain ⟨pr, hmem, hne⟩ := h
  have hany : pairs.any (fun pr => pr.2.horizon ≠ pr.1.length) = true :=
    List.any_eq_true.mpr ⟨pr, hmem, decide_eq_true hne⟩
  have hnil : pairs ≠ [] := by
    intro he
    subst he
    cases hmem
  unfold score
  rw [if_neg (by simpa [List.isEmpty_iff] using hnil), if_pos hany]

/-- C4: for every positive scalar k, scoring (series × k, forecast × k)
yields exactly the same result as scoring (series, forecast): the
normalized metric is scale invariant. -/
theorem score_scale_invariant (pairs : List (List ℚ × Forecast))
    (quantileLevels : List ℚ) (k : ℚ) (hk : 0 < k) (hne : pairs ≠ [])
    (hq : ∀ q ∈ quantileLevels, 0 < q ∧ q < 1) :
    score (scalePairs k pairs) quantileLevels = score pairs quantileLevels := by
  by_cases hsh : ∀ pr ∈ pairs, pr.2.horizon = pr.1.length
  · have hne' : scalePairs k pairs ≠ [] := by
      simp only [scalePairs, ne_eq, List.map_eq_nil_iff]
      exact hne
    have hsh' : ∀ pr ∈ scalePairs k pairs, pr.2.horizon = pr.1.length := by
      intro pr hpr
      simp only [scalePairs, List.mem_map] at hpr
      obtain ⟨a, ha, rfl⟩ := hpr
      simpa [Forecast.scale, scaleSeries] using hsh a ha
    rw [score_eq_ok _ _ hne' hsh' hq, score_eq_ok _ _ hne hsh hq]
    refine congrArg Except.ok ?_
    have hnum : ((scalePairs k pairs).map
        (fun pr => seriesLoss quantileLevels pr.1 pr.2)).sum =
        k * (pairs.map (fun pr => seriesLoss quantileLevels pr.1 pr.2)).sum := by
      simp only [scalePairs, List.map_map]
      rw [← List.sum_map_mul_left]
      refine congrArg List.sum ?_
      refine List.map_congr_left ?_
      intro pr hpr
      show seriesLoss quantileLevels (scaleSeries k pr.1) (Forecast.scale k pr.2) =
        k * seriesLoss quantileLevels pr.1 pr.2
      exact seriesLoss_smul quantileLevels pr.1 pr.2 k hk
    have hden : ((scalePairs k pairs).map (fun pr => absSum pr.1)).sum =
        k * (pairs.map (fun pr => absSum pr.1)).sum := by
      simp only [scalePairs, List.map_map]
      rw [← List.sum_map_mul_left]
      refine congrArg List.sum ?_
      refine List.map_congr_left ?_
      intro pr hpr
      show absSum (scaleSeries k pr.1) = k * absSum pr.1
      exact absSum_smul k hk pr.1
    rw [hnum, hden, mul_div_mul_left _ _ (ne_of_gt hk)]
  · push_neg at hsh
    obtain ⟨pr, hpr, hmis⟩ := hsh
    have h2 : ∃ pr ∈ scalePairs k pairs, pr.2.horizon ≠ pr.1.length := by
      refine ⟨(scaleSeries k pr.1, Forecast.scale k pr.2), ?_, ?_⟩
      · simp only [scalePairs, List.mem_map]
        exact ⟨pr, hpr, rfl⟩
      · simpa [Forecast.scale, scaleSeries] using hmis
    rw [score_mismatch_aux _ _ h2, score_mismatch_aux _ _ ⟨pr, hpr, hmis⟩]

/-- Witness for C4 at k = 2 on a single two-step pair scored at the
median quantile level. -/
theorem score_scale_invariant_witness :
    (0 : ℚ) < 2 ∧
    (([([1, 2], Forecast.ofPoint [2, 2])] : List (List ℚ × Forecast)) ≠ []) ∧
    (∀ q ∈ [(1 : ℚ)/2], 0 < q ∧ q < 1) ∧
    score (scalePairs 2 [([1, 2], Forecast.ofPoint [2, 2])]) [1/2] =
      score [([1, 2], Forecast.ofPoint [2, 2])] [1/2] := by
  have h0 : (0 : ℚ) < 2 := by norm_num
  have h1 : (([([1, 2], Forecast.ofPoint [2, 2])] :
      List (List ℚ × Forecast)) ≠ []) := by simp
  have h3 : ∀ q ∈ [(1 : ℚ)/2], 0 < q ∧ q < 1 := by
    intro q hq
    rw [List.mem_singleton] at hq
    subst hq
    norm_num
  exact ⟨h0, h1, h3, score_scale_invariant _ _ 2 h0 h1 h3⟩

/-- C8: the three evaluation cells run one and the same procedure: each
constructs the evaluator with the identical default configuration (same
quantile levels, same normalization) and scores its forecasts against the
held-out series derived from the same test split, so the three aggregate
scores are directly comparable. -/
theorem evaluation_runs_identical :
    zeroShotEvaluator = baselineEvaluator ∧
    baselineEvaluator = fineTunedEvaluator ∧
    zeroShotEvaluator.quantileLevels = defaultQuantileLevels ∧
    (∀ testSet forecasts, zeroShotAggMetrics testSet forecasts =
      aggregateMetrics defaultEvaluator (makeEvaluationGroundTruth testSet)
        forecasts) ∧
    (∀ testSet forecasts, baselineAggMetrics testSet forecasts =
      aggregateMetrics defaultEvaluator (makeEvaluationGroundTruth testSet)
        forecasts) ∧
    (∀ testSet forecasts, fineTunedAggMetrics testSet forecasts =
      aggregateMetrics defaultEvaluator (makeEvaluationGroundTruth testSet)
        forecasts) ∧
    zeroShotAggMetrics = baselineAggMetrics ∧
    baselineAggMetrics = fineTunedAggMetrics :=
  ⟨rfl, rfl, rfl, fun _ _ => rfl, fun _ _ => rfl, fun _ _ => rfl, rfl, rfl⟩

/-- C9: in each of the three evaluation runs, the scalar printed under the
label "CRPS" is exactly the `mean_wQuantileLoss` entry of the
aggregate-metrics mapping returned by the evaluator — the aggregate
weighted quantile loss — and not a separately computed continuous ranked
probability score. -/
theorem printedCRPS_is_mean_wQuantileLoss (testSet : List (List ℚ))
    (forecasts : List Forecast) (v : ℚ)
    (h : score (testSet.zip forecasts) defaultQuantileLevels = Except.ok v) :
    zeroShotAggMetrics testSet forecasts =
        Except.ok [("mean_wQuantileLoss", v)] ∧
    zeroShotPrintedCRPS testSet forecasts = Except.ok v ∧
    baselinePrintedCRPS testSet forecasts = Except.ok v ∧
    fineTunedPrintedCRPS testSet forecasts = Except.ok v := by
  have hagg : zeroShotAggMetrics testSet forecasts =
      Except.ok [("mean_wQuantileLoss", v)] := by
    show (score (testSet.zip forecasts) defaultQuantileLevels).map
      (fun w => [("mean_wQuantileLoss", w)]) =
      Except.ok [("mean_wQuantileLoss", v)]
    rw [h]
    rfl
  have hz : zeroShotPrintedCRPS testSet forecasts = Except.ok v := by
    show ((score (testSet.zip forecasts) defaultQuantileLevels).map
      (fun w => [("mean_wQuantileLoss", w)])).map printedCRPS = Except.ok v
    rw [h]
    rfl
  have hb : baselinePrintedCRPS testSet forecasts = Except.ok v := by
    show ((score (testSet.zip forecasts) defaultQuantileLevels).map
      (fun w => [("mean_wQuantileLoss", w)])).map printedCRPS = Except.ok v
    rw [h]
    rfl
  have hf : fineTunedPrintedCRPS testSet forecasts = Except.ok v := by
    show ((score (testSet.zip forecasts) defaultQuantileLevels).map
      (fun w => [("mean_wQuantileLoss", w)])).map printedCRPS = Except.ok v
    rw [h]
    rfl
  exact ⟨hagg, hz, hb, hf⟩

/-- Witness for C9: a single two-step series forecast perfectly, whose
aggregate weighted quantile loss is 0, printed as CRPS 0 in all three
cells. -/
theorem printedCRPS_is_mean_wQuantileLoss_witness :
    score (([[1, 2]] : List (List ℚ)).zip [Forecast.ofPoint [1, 2]])
        defaultQuantileLevels = Except.ok 0 ∧
    zeroShotAggMetrics [[1, 2]] [Forecast.ofPoint [1, 2]] =
        Except.ok [("mean_wQuantileLoss", 0)] ∧
    zeroShotPrintedCRPS [[1, 2]] [Forecast.ofPoint [1, 2]] = Except.ok 0 ∧
    baselinePrintedCRPS [[1, 2]] [Forecast.ofPoint [1, 2]] = Except.ok 0 ∧
    fineTunedPrintedCRPS [[1, 2]] [Forecast.ofPoint [1, 2]] = Except.ok 0 := by
  have h : score (([[1, 2]] : List (List ℚ)).zip [Forecast.ofPoint [1, 2]])
      defaultQuantileLevels = Except.ok 0 := by
    norm_num [score, seriesLoss, quantileLoss, absSum, Forecast.ofPoint,
      defaultQuantileLevels, validQuantile, List.range_succ]
  obtain ⟨h1, h2, h3, h4⟩ :=
    printedCRPS_is_mean_wQuantileLoss [[1, 2]] [Forecast.ofPoint [1, 2]] 0 h
  exact ⟨h, h1, h2, h3, h4⟩

/-- C10: only the fine-tuned run's estimator is constructed with
`nonnegative_pred_samples=True`; under the modelled sampling constraint
every sampled trajectory value of the fine-tuned forecasts is nonnegative,
while the zero-shot construction leaves the flag unset and its sampled
values unconstrained. -/
theorem nonnegative_pred_samples_only_fine_tuned :
    fineTunedEstimator.nonnegative_pred_samples = true ∧
    zeroShotEstimator.nonnegative_pred_samples = false ∧
    (∀ x : ℚ, 0 ≤ applySampleConstraint fineTunedEstimator x) ∧
    (∀ x : ℚ, applySampleConstraint zeroShotEstimator x = x) ∧
    ¬ (∀ x : ℚ, 0 ≤ applySampleConstraint zeroShotEstimator x) := by
  refine ⟨rfl, rfl, ?_, ?_, ?_⟩
  · intro x
    have hx : applySampleConstraint fineTunedEstimator x = max 0 x := rfl
    rw [hx]
    exact le_max_left 0 x
  · intro x
    rfl
  · intro hall
    have h2 := hall (-1)
    have hx : applySampleConstraint zeroShotEstimator (-1 : ℚ) = -1 := rfl
    rw [hx] at h2
    exact absurd h2 (by norm_num)
